import Mathlib

/-!
# Verification of the WhisperNotebook transcription pipeline

Shallow embedding of the transcription job pipeline of the WhisperNotebook
repository (backend/app/services/transcription_service.py,
backend/app/services/youtube_service.py, backend/app/api/texts.py), together
with theorems settling the frozen claims about the natural-language
specification of that pipeline.

Conventions of the embedding:
* Python strings are Lean `String`s; operations that Python performs on code
  points are modelled on the `List Char` of code points, which matches Python's
  string semantics.
* Machine floats that the code uses for durations and costs are modelled as
  `Rat`; timestamps handed to `format_timestamp` are modelled by their exact
  microsecond count, which is what `datetime.timedelta` stores internally.
* The database (SQLAlchemy `Text` and `Cost` tables) is modelled as lists of
  records kept in primary-key insertion order; the filesystem is modelled as
  the list of existing paths.
* External effects (ffmpeg, ffprobe, the Whisper model, the OpenAI API,
  yt-dlp) are modelled by an environment record carrying each call's outcome;
  the pipeline defined here is the faithful translation of the repository's
  control flow over those outcomes.
-/

namespace WhisperNotebook

/-! ## Python string primitives -/

/-- Model of Python `str.zfill`: left-pad with `'0'` up to length `n`
(the inputs in this development never start with a sign character). -/
def zfill (n : Nat) (s : String) : String :=
  if s.length < n then String.mk (List.replicate (n - s.length) '0') ++ s else s

/-- Model of Python `str.lower` restricted to what can affect membership in the
ASCII extension whitelists used by the upload endpoint: ASCII uppercase is
mapped to lowercase and U+212A (KELVIN SIGN, the one non-ASCII character whose
lowercase form is ASCII) is mapped to `'k'`; every other character is kept,
which agrees with Python on whether the result lies in an ASCII whitelist. -/
def pyLowerChar (c : Char) : Char :=
  if 'A' ≤ c ∧ c ≤ 'Z' then Char.ofNat (c.toNat + 32)
  else if c = Char.ofNat 0x212A then 'k'
  else c

/-- Model of Python `str.lower` (see `pyLowerChar`). -/
def pyLower (s : String) : String :=
  String.mk (s.data.map pyLowerChar)

/-- Index of the last occurrence of `c` in `cs`, if any. -/
def lastIndexOf (c : Char) (cs : List Char) : Option Nat :=
  (List.range cs.length).foldl
    (fun acc i => if cs.get? i = some c then some i else acc) none

/-- Index at which `os.path.splitext` splits off the extension, if the
extension is non-empty: the last `'.'` that comes after the last `'/'` and has
at least one non-dot character between that `'/'` (or the string start) and
itself, mirroring `posixpath.splitext`. -/
def splitextIdx (cs : List Char) : Option Nat :=
  match lastIndexOf '.' cs with
  | none => none
  | some d =>
    let start := match lastIndexOf '/' cs with
      | none => 0
      | some s => s + 1
    if start ≤ d ∧ ((cs.drop start).take (d - start)).any (fun c => c ≠ '.')
    then some d else none

/-- Model of Python `os.path.splitext` (posix flavour). -/
def splitext (p : String) : String × String :=
  match splitextIdx p.data with
  | none => (p, "")
  | some d => (String.mk (p.data.take d), String.mk (p.data.drop d))

/-- Model of Python `os.path.basename` (posix flavour): everything after the
last `'/'`. -/
def pyBasename (p : String) : String :=
  match lastIndexOf '/' p.data with
  | none => p
  | some s => String.mk (p.data.drop (s + 1))

/-- Strip characters of `cset` from both ends of a character list, as Python
`str.strip` does. -/
def stripChars (cset : List Char) (cs : List Char) : List Char :=
  ((cs.dropWhile (fun c => cset.contains c)).reverse.dropWhile
    (fun c => cset.contains c)).reverse

/-- Model of Python `str.strip()` with no argument (the segment texts this is
applied to contain only ASCII whitespace). -/
def pyStrip (s : String) : String :=
  String.mk (stripChars [' ', '\t', '\n', '\r', '\x0b', '\x0c'] s.data)

/-- Collapse each run of consecutive underscores to a single underscore,
the effect of the source's substitution of pattern underscore-plus by a single
underscore. -/
def squeezeUnderscores : List Char → List Char
  | [] => []
  | [c] => [c]
  | a :: b :: rest =>
    if a = '_' ∧ b = '_' then squeezeUnderscores (b :: rest)
    else a :: squeezeUnderscores (b :: rest)

/-- ASCII word characters as matched by the character class w of the source's
regular expression on its pure-ASCII input. -/
def isWordChar (c : Char) : Bool :=
  ('a' ≤ c ∧ c ≤ 'z') ∨ ('A' ≤ c ∧ c ≤ 'Z') ∨ ('0' ≤ c ∧ c ≤ '9') ∨ c = '_'

/-! ## youtube_service.sanitize_filename and download naming -/

/-- The Cyrillic-to-Latin transliteration table of
`sanitize_filename` (youtube_service.py lines 15-26, duplicated in
api/texts.py); `none` means the character is not in the table. -/
def translitChar (c : Char) : Option String :=
  match c with
  | 'а' => some "a"  | 'б' => some "b"  | 'в' => some "v"  | 'г' => some "g"
  | 'д' => some "d"  | 'е' => some "e"  | 'ё' => some "yo" | 'ж' => some "zh"
  | 'з' => some "z"  | 'и' => some "i"  | 'й' => some "y"  | 'к' => some "k"
  | 'л' => some "l"  | 'м' => some "m"  | 'н' => some "n"  | 'о' => some "o"
  | 'п' => some "p"  | 'р' => some "r"  | 'с' => some "s"  | 'т' => some "t"
  | 'у' => some "u"  | 'ф' => some "f"  | 'х' => some "h"  | 'ц' => some "ts"
  | 'ч' => some "ch" | 'ш' => some "sh" | 'щ' => some "sch"
  | 'ъ' => some ""   | 'ы' => some "y"  | 'ь' => some ""   | 'э' => some "e"
  | 'ю' => some "yu" | 'я' => some "ya"
  | 'А' => some "A"  | 'Б' => some "B"  | 'В' => some "V"  | 'Г' => some "G"
  | 'Д' => some "D"  | 'Е' => some "E"  | 'Ё' => some "Yo" | 'Ж' => some "Zh"
  | 'З' => some "Z"  | 'И' => some "I"  | 'Й' => some "Y"  | 'К' => some "K"
  | 'Л' => some "L"  | 'М' => some "M"  | 'Н' => some "N"  | 'О' => some "O"
  | 'П' => some "P"  | 'Р' => some "R"  | 'С' => some "S"  | 'Т' => some "T"
  | 'У' => some "U"  | 'Ф' => some "F"  | 'Х' => some "H"  | 'Ц' => some "Ts"
  | 'Ч' => some "Ch" | 'Ш' => some "Sh" | 'Щ' => some "Sch"
  | 'Ъ' => some ""   | 'Ы' => some "Y"  | 'Ь' => some ""   | 'Э' => some "E"
  | 'Ю' => some "Yu" | 'Я' => some "Ya"
  | _ => none

/-- Model of `unicodedata.normalize("NFKD", s)`: the identity on strings all
of whose characters have no compatibility decomposition, which covers every
string this development evaluates it on (ASCII and the basic Cyrillic
letters). -/
def nfkd (s : String) : String := s

/-- Faithful model of `sanitize_filename` (youtube_service.py lines 6-50; the
same function is duplicated verbatim in api/texts.py lines 18-62).  Note the
source splits off the extension first, sanitizes only the stem, and appends
the extension back unchanged. -/
def sanitize_filename (filename : String) : String :=
  let pair := splitext filename
  let transliterated := String.join (pair.1.data.map (fun c =>
    match translitChar c with
    | some s => s
    | none => String.mk [c]))
  let normalized := nfkd transliterated
  let asciiName := String.mk (normalized.data.filter (fun c => c.toNat < 128))
  let cleaned := String.mk (asciiName.data.map (fun c =>
    if isWordChar c ∨ c = '-' ∨ c = '.' then c else '_'))
  let cleaned := String.mk (squeezeUnderscores cleaned.data)
  let cleaned := String.mk (stripChars ['_'] cleaned.data)
  let cleaned := if cleaned = "" then "file" else cleaned
  cleaned ++ pair.2

/-- Final artifact path produced by `download_youtube_video`
(youtube_service.py lines 52-91) on the successful rename path:
`uploads/youtube_<id>_<sanitized title>.wav`. -/
def download_final_name (transcriptionId : Nat) (videoTitle : String) : String :=
  "uploads/youtube_" ++ toString transcriptionId ++ "_"
    ++ sanitize_filename videoTitle ++ ".wav"

/-! ## format_timestamp -/

/-- Zero-pad the decimal representation of `n` to `width` digits, the model of
the `%02d` and `%06d` conversions in `datetime.timedelta.__str__`. -/
def padNat (width : Nat) (n : Nat) : String :=
  zfill width (toString n)

/-- Model of Python `str(datetime.timedelta(...))` on a non-negative value,
taking the value as its exact count of microseconds: produces
`"H:MM:SS"`, prepends `"D day(s), "` when there is a whole-day part, and
appends `".UUUUUU"` when the microsecond part is non-zero, exactly as
`timedelta.__str__` does. -/
def pyTimedeltaStr (usec : Nat) : String :=
  let days := usec / 86400000000
  let rem := usec % 86400000000
  let secs := rem / 1000000
  let micro := rem % 1000000
  let hh := secs / 3600
  let mm := (secs / 60) % 60
  let ss := secs % 60
  let base := toString hh ++ ":" ++ padNat 2 mm ++ ":" ++ padNat 2 ss
  let base := if days ≠ 0 then
      toString days ++ " day" ++ (if days ≠ 1 then "s" else "") ++ ", " ++ base
    else base
  if micro ≠ 0 then base ++ "." ++ padNat 6 micro else base

/-- Faithful model of `TranscriptionService.format_timestamp`
(transcription_service.py lines 124-136).  The float `seconds` argument is
represented by its exact microsecond count after the `timedelta(seconds=...)`
conversion.  The source stringifies the timedelta, appends `".000000"` when no
dot is present, truncates to 12 characters, replaces the dot by a comma, pads
the part after the first comma to three characters when shorter, and finally
zero-fills to width 12. -/
def format_timestamp (usec : Nat) : String :=
  let result := pyTimedeltaStr usec
  let result := if result.data.contains '.' then result else result ++ ".000000"
  let result := String.mk ((result.data.take 12).map
    (fun c => if c = '.' then ',' else c))
  let result :=
    if ¬ result.data.contains ',' then result ++ ",000"
    else
      let frac := ((result.data.dropWhile (fun c => c ≠ ',')).drop 1).takeWhile
        (fun c => c ≠ ',')
      if frac.length < 3 then
        result ++ String.mk (List.replicate (3 - frac.length) '0')
      else result
  zfill 12 result

/-! ## Transcription backends -/

/-- One utterance segment as produced by the faster-whisper model; `start` and
`stop` are the float segment bounds in seconds, represented by their exact
microsecond counts. -/
structure Segment where
  start : Nat
  stop : Nat
  text : String
deriving DecidableEq, Repr

/-- Outcomes of the external effects performed during one run of the pipeline
(ffmpeg, ffprobe, the Whisper model, the OpenAI API, the stored credential,
and the `traceback.format_exc()` string of the moment an exception is
handled). -/
structure RunEnv where
  fileExists : Bool
  readErr : Option String
  extractErr : Option String
  convertedExists : Bool
  probeDuration : Option Rat
  localModel : Except String (List Segment × String)
  apiTranscript : Except String String
  apiProbe : Option Rat
  apiKey : Option String
  traceback : String
deriving Repr

/-- The per-segment lines accumulated into `full_text` by `transcribe_local`
(transcription_service.py lines 157-167): with timestamps each stripped
segment text is prefixed by its bracketed formatted start time. -/
def renderSegmentLines (segs : List Segment) (addTimestamps : Bool) : List String :=
  segs.map (fun seg =>
    let t := pyStrip seg.text
    if addTimestamps then "[" ++ format_timestamp seg.start ++ "] " ++ t else t)

/-- Faithful model of `TranscriptionService.transcribe_local`
(transcription_service.py lines 138-169), non-demo mode: joins the segment
lines with newlines, reports cost `0.0`, and returns as detected language
`info.language if not language else language` — the model's detection only
when the hint is `None` or empty, and otherwise the hint string itself. -/
def transcribe_local (env : RunEnv) (language : Option String)
    (addTimestamps : Bool) : Except String (String × String × Rat) :=
  match env.localModel with
  | .error m => .error m
  | .ok (segs, infoLanguage) =>
    let detected := match language with
      | none => infoLanguage
      | some l => if l = "" then infoLanguage else l
    .ok (String.intercalate "\n" (renderSegmentLines segs addTimestamps),
         detected, 0)

/-- Faithful model of `TranscriptionService.transcribe_api`
(transcription_service.py lines 171-207), non-demo mode: cost is the ffprobe
duration in minutes times the fixed rate 0.006 dollars per minute, or the
default 0.006 when the duration cannot be determined; the reported detected
language is the hint when it is truthy and not `"auto"`, else `"auto"`. -/
def transcribe_api (env : RunEnv) (language : Option String)
    (addTimestamps : Bool) : Except String (String × String × Rat) :=
  match env.apiTranscript with
  | .error m => .error m
  | .ok transcript =>
    let cost : Rat := match env.apiProbe with
      | some d => d / 60 * (6 / 1000)
      | none => 6 / 1000
    let detected := match language with
      | none => "auto"
      | some l => if l ≠ "" ∧ l ≠ "auto" then l else "auto"
    .ok (transcript, detected, cost)

/-! ## Record store -/

/-- One row of the `texts` table, restricted to the columns the pipeline
reads or writes (database.py, class Text).  The status strings used by the
code are `"queued"`, `"processing"`, `"unread"` (terminal success — the
spec's `ready`), `"read"` and `"failed"`. -/
structure Job where
  id : Nat
  status : String
  queuedAt : Nat
  sourceType : String
  fileType : String
  filename : String
  originalFilename : String
  method : String
  language : Option String
  content : String
  cost : Rat
  duration : Option Rat
  errorMessage : Option String
deriving DecidableEq, Repr

/-- One row of the `costs` table (database.py, class Cost); `details` models
the JSON payload `(text_id, method, file)`. -/
structure CostRecord where
  service : String
  category : String
  amount : Rat
  details : Nat × String × String
deriving DecidableEq, Repr

/-- The store: `texts` and `costs` in primary-key insertion order, plus the
set of filesystem paths that exist, as a list. -/
structure PState where
  texts : List Job
  costs : List CostRecord
  files : List String
deriving DecidableEq, Repr

/-- `db.query(Text).filter(Text.id == text_id).first()`. -/
def findText (st : PState) (textId : Nat) : Option Job :=
  st.texts.find? (fun t => t.id == textId)

/-- `db.query(Text).filter(Text.status == "processing").first()`. -/
def firstProcessing (st : PState) : Option Job :=
  st.texts.find? (fun t => t.status == "processing")

/-- ORM field assignment plus commit on the record with the given id. -/
def updateText (st : PState) (textId : Nat) (f : Job → Job) : PState :=
  { st with texts := st.texts.map (fun t => if t.id == textId then f t else t) }

/-- The temporary normalized-audio path `temp/<id>_audio.wav` built in
`process_transcription` (transcription_service.py line 266). -/
def audioPathFor (textId : Nat) : String :=
  "temp/" ++ toString textId ++ "_audio.wav"

/-! ## The job state machine -/

/-- The field assignment `text.status = "processing"` plus commit. -/
def markProcessing (x : Job) : Job := { x with status := "processing" }

/-- The field assignment `text.duration = float(audio_duration)` plus commit. -/
def setDuration (d : Rat) (x : Job) : Job := { x with duration := some d }

/-- The result block `text.content = ...; text.language = ...; text.cost = ...;
text.status = "unread"` plus commit (transcription_service.py lines 307-312). -/
def applyResult (newContent detectedLang : String) (cost : Rat) (x : Job) : Job :=
  { x with content := newContent, language := some detectedLang,
           cost := cost, status := "unread" }

/-- The field assignment `text.filename = os.path.basename(video_path)` plus
commit (transcription_service.py line 441). -/
def setFilename (name : String) (x : Job) : Job := { x with filename := name }

/-- Backend dispatch of `process_transcription` (transcription_service.py
lines 296-305): the string flag `"local"` selects the local backend; any
other method loads the stored OpenAI key (raising when absent) and calls the
API backend. -/
def selectBackend (env : RunEnv) (method : String) (language : Option String)
    (addTimestamps : Bool) : Except String (String × String × Rat) :=
  if method = "local" then transcribe_local env language addTimestamps
  else match env.apiKey with
    | none => .error "OpenAI API key not set"
    | some _ => transcribe_api env language addTimestamps

/-- Body of the `try` block of `process_transcription` after the job has been
marked `processing` (transcription_service.py lines 236-329): presence check
of the source file, read check, audio extraction (writing the temp artifact),
existence check of the converted file, the non-fatal duration probe, backend
invocation, persistence of the result, conditional cost recording, and
removal of the temp artifact.  Returns the updated store and the message of
the exception that aborted the body, if any. -/
def runPipeline (env : RunEnv) (st : PState) (t : Job) (filePath : String)
    (method : String) (language : Option String) (addTimestamps : Bool) :
    PState × Option String :=
  if ¬ env.fileExists then (st, some ("File not found: " ++ filePath))
  else match env.readErr with
  | some m => (st, some m)
  | none =>
    match env.extractErr with
    | some m => (st, some m)
    | none =>
      let audioPath := audioPathFor t.id
      let st := { st with files := audioPath :: st.files }
      if ¬ env.convertedExists then
        (st, some ("Converted audio file not found: " ++ audioPath))
      else
        let st := match env.probeDuration with
          | some d => updateText st t.id (setDuration d)
          | none => st
        match selectBackend env method language addTimestamps with
        | .error m => (st, some m)
        | .ok (newContent, detectedLang, cost) =>
          let st := updateText st t.id (applyResult newContent detectedLang cost)
          let st := if 0 < cost then
              { st with costs := st.costs ++
                  [⟨"whisper", "transcription", cost,
                    (t.id, method, t.originalFilename)⟩] }
            else st
          let st := if audioPath ≠ filePath ∧ st.files.contains audioPath then
              { st with files := st.files.erase audioPath }
            else st
          (st, none)

/-- The message of the first exception raised inside the `try` block of
`process_transcription`, as a function of the effect outcomes only (the body
never lets the store influence which exception is raised). -/
def stage_error (env : RunEnv) (textId : Nat) (filePath : String)
    (method : String) (language : Option String) (addTimestamps : Bool) :
    Option String :=
  if ¬ env.fileExists then some ("File not found: " ++ filePath)
  else match env.readErr with
  | some m => some m
  | none => match env.extractErr with
    | some m => some m
    | none =>
      if ¬ env.convertedExists then
        some ("Converted audio file not found: " ++ audioPathFor textId)
      else match selectBackend env method language addTimestamps with
        | .error m => some m
        | .ok _ => none

/-- The exception handler of `process_transcription` (lines 331-352): set
`status = "failed"` and store the exception message followed by the full
traceback. -/
def failUpdate (tracebackStr : String) (msg : String) (x : Job) : Job :=
  { x with status := "failed",
           errorMessage := some (msg ++ "\n\nFull traceback:\n" ++ tracebackStr) }

/-- Faithful model of `TranscriptionService.process_transcription`
(transcription_service.py lines 209-358).  The entry guard proceeds only when
no record has status `"processing"` or the first such record is the job
itself; otherwise the call returns with the store untouched.  The `finally`
block's `process_next_in_queue` call only reads the store (it spawns a thread
but performs no writes), so it does not appear in the returned store; it is
modelled separately by `process_next_in_queue`. -/
def process_transcription (env : RunEnv) (st : PState) (textId : Nat)
    (filePath : String) (method : String) (language : Option String)
    (addTimestamps : Bool) : PState :=
  match findText st textId with
  | none => st
  | some t =>
    let proceed : Bool := match firstProcessing st with
      | some p => p.id == textId
      | none => true
    if ¬ proceed then st
    else
      let st1 := updateText st textId markProcessing
      match runPipeline env st1 t filePath method language addTimestamps with
      | (st2, none) => st2
      | (st2, some msg) => updateText st2 textId (failUpdate env.traceback msg)

/-- Outcome of `download_youtube_video` plus the traceback string of the
YouTube runner's exception handler. -/
structure YoutubeEnv where
  download : Except String String
  traceback : String
deriving Repr

/-- Faithful model of `TranscriptionService.process_youtube`
(transcription_service.py lines 407-474): same entry guard, mark processing,
download (on failure the handler marks the job failed with message plus
traceback), record the downloaded basename as the job's filename, then run
`process_transcription` on the downloaded file. -/
def process_youtube (envY : YoutubeEnv) (env : RunEnv) (st : PState)
    (textId : Nat) (youtubeUrl : String) (method : String)
    (language : Option String) (addTimestamps : Bool) : PState :=
  match findText st textId with
  | none => st
  | some _ =>
    let proceed : Bool := match firstProcessing st with
      | some p => p.id == textId
      | none => true
    if ¬ proceed then st
    else
      let st1 := updateText st textId markProcessing
      match envY.download with
      | .error m => updateText st1 textId (failUpdate envY.traceback m)
      | .ok videoPath =>
        let st2 := updateText st1 textId (setFilename (pyBasename videoPath))
        process_transcription env st2 textId videoPath method language
          addTimestamps

/-! ## The queue scheduler -/

/-- Single fold step selecting the record with strictly smaller `queuedAt`,
keeping the earlier record on ties. -/
def minQueuedStep (best cand : Job) : Job :=
  if cand.queuedAt < best.queuedAt then cand else best

/-- Model of `db.query(Text).filter(Text.status == "queued")
.order_by(Text.queued_at).first()` over the id-ordered table: the first
record, in stored order, among those of minimal `queuedAt`. -/
def oldestQueued (texts : List Job) : Option Job :=
  match texts.filter (fun t => t.status == "queued") with
  | [] => none
  | q :: qs => some (qs.foldl minQueuedStep q)

/-- The thread `process_next_in_queue` starts, with the exact arguments the
source passes (transcription_service.py lines 383-399; `add_timestamps` is
hard-coded to `True` there). -/
inductive Spawn where
  | youtube (textId : Nat) (url : String) (method : String)
      (language : Option String) (addTimestamps : Bool)
  | upload (textId : Nat) (filePath : String) (method : String)
      (language : Option String) (addTimestamps : Bool)
deriving DecidableEq, Repr

/-- Which thread `process_next_in_queue` starts for a given queued record. -/
def spawnFor (q : Job) : Spawn :=
  if q.sourceType = "youtube" then
    Spawn.youtube q.id q.originalFilename q.method q.language true
  else
    Spawn.upload q.id ("uploads/" ++ q.filename) q.method q.language true

/-- Faithful model of `TranscriptionService.process_next_in_queue`
(transcription_service.py lines 360-405): no-op when any record is
`processing` or none is `queued`; otherwise starts the oldest queued record's
runner asynchronously.  The function performs no store writes, so its result
is just the spawned thread, if any. -/
def process_next_in_queue (st : PState) : Option Spawn :=
  match firstProcessing st with
  | some _ => none
  | none =>
    match oldestQueued st.texts with
    | none => none
    | some q => some (spawnFor q)

/-! ## HTTP endpoints (api/texts.py) -/

/-- Queue statistics endpoint `get_queue_stats` (api/texts.py lines 384-395):
returns the counts of `processing` and `unread` records and the total number
of records, as the JSON object keys `"processing"`, `"unread"`, `"total"`. -/
def get_queue_stats (st : PState) : List (String × Nat) :=
  [("processing", (st.texts.filter (fun t => t.status == "processing")).length),
   ("unread", (st.texts.filter (fun t => t.status == "unread")).length),
   ("total", st.texts.length)]

/-- The audio extension whitelist of `upload_file` (api/texts.py line 87). -/
def audioExtensions : List String :=
  [".mp3", ".wav", ".flac", ".m4a", ".ogg", ".opus", ".wma", ".aac"]

/-- The video extension whitelist of `upload_file` (api/texts.py line 88). -/
def videoExtensions : List String :=
  [".mp4", ".mkv", ".mov", ".avi", ".webm", ".flv", ".wmv"]

/-- Request-independent inputs of one `upload_file` call: the timestamp used
in the saved filename, the `queued_at` value, the id the database assigns to
the new record, and whether the disk write succeeds and verifies. -/
structure UploadEnv where
  nowStr : String
  queuedAt : Nat
  nextId : Nat
  saveOk : Bool
deriving Repr

/-- Faithful model of the `upload_file` endpoint (api/texts.py lines 64-176):
reject with HTTP 400 oversized, empty, or non-whitelisted uploads before any
write; then save the file under a timestamped sanitized name, create the
`queued` record, and hand it to the background runner.  Returns the updated
store and either the HTTP error (status code and detail) or the new record's
id. -/
def upload_file (envU : UploadEnv) (st : PState) (fileSize : Nat)
    (uploadName : String) (method : String) (language : String) :
    PState × Except (Nat × String) Nat :=
  if fileSize > 500 * 1024 * 1024 then
    (st, .error (400, "File too large. Maximum size is 500MB"))
  else if fileSize = 0 then
    (st, .error (400, "Uploaded file is empty (0 bytes)"))
  else
    let fileExt := pyLower (splitext uploadName).2
    let fileKind : Option String :=
      if audioExtensions.contains fileExt then some "audio"
      else if videoExtensions.contains fileExt then some "video"
      else none
    match fileKind with
    | none => (st, .error (400, "Unsupported file format"))
    | some fileType =>
      let filename := envU.nowStr ++ "_" ++ sanitize_filename uploadName
      let filepath := "uploads/" ++ filename
      let st := { st with files := filepath :: st.files }
      if ¬ envU.saveOk then
        (st, .error (500, "Failed to save file"))
      else
        let newJob : Job :=
          { id := envU.nextId, status := "queued", queuedAt := envU.queuedAt,
            sourceType := "upload", fileType := fileType, filename := filename,
            originalFilename := uploadName, method := method,
            language := if language ≠ "auto" then some language else none,
            content := "", cost := 0, duration := none, errorMessage := none }
        ({ st with texts := st.texts ++ [newJob] }, .ok envU.nextId)

/-! ## Claim-side predicates

These definitions transcribe wording of the specification (not the source);
they are only compared against the behaviour of the source-derived
definitions above. -/

/-- ASCII decimal digit. -/
def isDigitChar (c : Char) : Bool := '0' ≤ c ∧ c ≤ '9'

/-- The line pattern the specification asserts for timestamped local
transcripts: `[HH:MM:SS,mmm] <text>` with two-digit hours, minutes and
seconds and three-digit milliseconds. -/
def specTimestampLinePattern (l : List Char) : Bool :=
  match l with
  | '[' :: h1 :: h2 :: ':' :: m1 :: m2 :: ':' :: s1 :: s2 :: ',' ::
      f1 :: f2 :: f3 :: ']' :: ' ' :: _ =>
    isDigitChar h1 && isDigitChar h2 && isDigitChar m1 && isDigitChar m2 &&
    isDigitChar s1 && isDigitChar s2 && isDigitChar f1 && isDigitChar f2 &&
    isDigitChar f3
  | _ => false

/-- The FIFO order the specification asserts for admission: earlier
`queued_at` first, ties broken by ascending job id. -/
def lexLE (a b : Job) : Prop :=
  a.queuedAt < b.queuedAt ∨ (a.queuedAt = b.queuedAt ∧ a.id ≤ b.id)

/-- A string consists of ASCII characters only. -/
def asciiOnly (s : String) : Bool :=
  s.data.all (fun c => c.toNat < 128)

/-- Composite update a job undergoes between backend success and commit in
one successful run: the optional duration probe result followed by the result
block. -/
def successJob (env : RunEnv) (newContent detectedLang : String) (cost : Rat)
    (x : Job) : Job :=
  applyResult newContent detectedLang cost
    (match env.probeDuration with
     | some d => setDuration d x
     | none => x)

/-! ## Concrete fixtures for witnesses and counterexamples -/

/-- A queued upload job used in concrete witnesses. -/
def wJob : Job :=
  { id := 1, status := "queued", queuedAt := 10, sourceType := "upload",
    fileType := "audio", filename := "a.mp3", originalFilename := "a.mp3",
    method := "local", language := none, content := "", cost := 0,
    duration := none, errorMessage := none }

/-- A processing job with a different id. -/
def wJob2 : Job := { wJob with id := 2, status := "processing", queuedAt := 20 }

/-- An older queued job with a larger id. -/
def wJob3 : Job := { wJob with id := 3, queuedAt := 5 }

/-- Store with a queued job and another job currently processing. -/
def wStore : PState :=
  { texts := [wJob, wJob2], costs := [], files := ["uploads/a.mp3"] }

/-- Store with two queued jobs and nothing processing. -/
def wStoreQ : PState :=
  { texts := [wJob, wJob3], costs := [], files := ["uploads/a.mp3"] }

/-- Effect outcomes of a fully successful run: one Whisper segment starting
at 0 s, API transcript of a 100-second file. -/
def wEnvOk : RunEnv :=
  { fileExists := true, readErr := none, extractErr := none,
    convertedExists := true, probeDuration := some 10,
    localModel := Except.ok ([⟨0, 1500000, "Hello"⟩], "en"),
    apiTranscript := Except.ok "hi", apiProbe := some 100,
    apiKey := some "sk", traceback := "TRACE" }

/-- Effect outcomes where audio extraction fails. -/
def wEnvFail : RunEnv := { wEnvOk with extractErr := some "boom" }

/-- A failing YouTube download. -/
def wEnvY : YoutubeEnv :=
  { download := Except.error "network down", traceback := "TRACEY" }

/-- A successful YouTube download. -/
def wEnvYOk : YoutubeEnv :=
  { download := Except.ok "uploads/youtube_1_v.wav", traceback := "TBOK" }

/-- Store with one queued and two unread jobs, used against the queue-stats
claim. -/
def wStoreStats : PState :=
  { texts := [wJob, { wJob with id := 2, status := "unread" },
              { wJob with id := 3, status := "unread" }],
    costs := [], files := [] }

/-- Upload-call environment fixture. -/
def wUploadEnv : UploadEnv :=
  { nowStr := "20240101_000000", queuedAt := 1, nextId := 9, saveOk := true }

/-! ## Helper lemmas about the record store -/

@[simp] lemma markProcessing_id (x : Job) : (markProcessing x).id = x.id := rfl

@[simp] lemma setDuration_id (d : Rat) (x : Job) :
    (setDuration d x).id = x.id := rfl

@[simp] lemma applyResult_id (c l : String) (r : Rat) (x : Job) :
    (applyResult c l r x).id = x.id := rfl

@[simp] lemma setFilename_id (n : String) (x : Job) :
    (setFilename n x).id = x.id := rfl

@[simp] lemma failUpdate_id (tb m : String) (x : Job) :
    (failUpdate tb m x).id = x.id := rfl

@[simp] lemma updateText_costs (st : PState) (i : Nat) (f : Job → Job) :
    (updateText st i f).costs = st.costs := rfl

@[simp] lemma updateText_files (st : PState) (i : Nat) (f : Job → Job) :
    (updateText st i f).files = st.files := rfl

/-- Looking a record up after an id-preserving update is looking it up before
and applying the update to the found record. -/
lemma findText_updateText (st : PState) (i j : Nat) (f : Job → Job)
    (hf : ∀ t, (f t).id = t.id) :
    findText (updateText st i f) j =
      (findText st j).map (fun t => if t.id == i then f t else t) := by
  unfold findText updateText
  rw [List.find?_map]
  have hpred : ((fun t : Job => t.id == j) ∘
      (fun t => if t.id == i then f t else t)) = (fun t : Job => t.id == j) := by
    funext t
    by_cases h : t.id == i <;> simp [Function.comp, h, hf]
  rw [hpred]

/-- Two id-targeted record maps with an id-preserving first update compose. -/
lemma map_update_comp (l : List Job) (i : Nat) (f g : Job → Job)
    (hf : ∀ t, (f t).id = t.id) :
    (l.map (fun t => if t.id == i then f t else t)).map
        (fun t => if t.id == i then g t else t) =
      l.map (fun t => if t.id == i then g (f t) else t) := by
  rw [List.map_map]
  have hfun : ((fun t : Job => if t.id == i then g t else t) ∘
      (fun t => if t.id == i then f t else t)) =
      (fun t : Job => if t.id == i then g (f t) else t) := by
    funext t
    by_cases h : t.id == i
    · have h2 : ((f t).id == i) = true := by rw [hf]; exact h
      simp [Function.comp, h, h2]
    · simp [Function.comp, h]
  rw [hfun]

/-- Two id-preserving updates of the same record compose. -/
lemma updateText_updateText (st : PState) (i : Nat) (f g : Job → Job)
    (hf : ∀ t, (f t).id = t.id) :
    updateText (updateText st i f) i g =
      updateText st i (fun t => g (f t)) := by
  unfold updateText
  simp only
  rw [map_update_comp st.texts i f g hf]

/-- Updating `texts` commutes with replacing `files`. -/
lemma updateText_withFiles (st : PState) (i : Nat) (f : Job → Job)
    (fs : List String) :
    updateText { st with files := fs } i f =
      { updateText st i f with files := fs } := rfl

/-- The record found by `findText` carries the id that was looked up. -/
lemma findText_id {st : PState} {i : Nat} {t : Job}
    (h : findText st i = some t) : t.id = i := by
  unfold findText at h
  have h' := List.find?_some h
  simpa using h'

/-- The record found by `findText` is in the store. -/
lemma findText_mem {st : PState} {i : Nat} {t : Job}
    (h : findText st i = some t) : t ∈ st.texts := by
  unfold findText at h
  exact List.mem_of_find?_eq_some h

@[simp] lemma successJob_id (env : RunEnv) (c l : String) (r : Rat)
    (x : Job) : (successJob env c l r x).id = x.id := by
  unfold successJob
  cases env.probeDuration <;> rfl

lemma successJob_probe_none {env : RunEnv} (c l : String) (r : Rat)
    (h : env.probeDuration = none) :
    successJob env c l r = applyResult c l r := by
  funext x
  unfold successJob
  rw [h]

lemma successJob_probe_some {env : RunEnv} (c l : String) (r d : Rat)
    (h : env.probeDuration = some d) :
    successJob env c l r = fun x => applyResult c l r (setDuration d x) := by
  funext x
  unfold successJob
  rw [h]

/-- Closed form of the `try`-block body on the all-stages-succeed path. -/
lemma runPipeline_success_eq (env : RunEnv) (st : PState) (t : Job)
    (filePath method : String) (language : Option String)
    (addTimestamps : Bool) (newContent detectedLang : String) (cost : Rat)
    (hfe : env.fileExists = true) (hre : env.readErr = none)
    (hee : env.extractErr = none) (hce : env.convertedExists = true)
    (hb : selectBackend env method language addTimestamps =
      Except.ok (newContent, detectedLang, cost))
    (hap : audioPathFor t.id ≠ filePath) :
    runPipeline env st t filePath method language addTimestamps =
      ({ updateText st t.id (successJob env newContent detectedLang cost) with
         costs := st.costs ++ (if 0 < cost then
           [⟨"whisper", "transcription", cost,
             (t.id, method, t.originalFilename)⟩] else []) }, none) := by
  unfold runPipeline
  rw [hfe, hre, hee, hce, hb]
  cases hpd : env.probeDuration with
  | none =>
    rw [successJob_probe_none newContent detectedLang cost hpd]
    by_cases hc : 0 < cost
    · simp [hap, hc, updateText_withFiles, List.erase_cons_head]
    · simp [hap, hc, updateText_withFiles, List.erase_cons_head]
  | some d =>
    rw [successJob_probe_some newContent detectedLang cost d hpd]
    by_cases hc : 0 < cost
    · simp [hap, hc, updateText_withFiles, List.erase_cons_head]
      simp only [updateText]
      exact map_update_comp st.texts t.id (setDuration d)
        (applyResult newContent detectedLang cost) (fun t => rfl)
    · simp [hap, hc, updateText_withFiles, List.erase_cons_head]
      simp only [updateText]
      exact map_update_comp st.texts t.id (setDuration d)
        (applyResult newContent detectedLang cost) (fun t => rfl)

/-- Closed form of `process_transcription` on the all-stages-succeed path. -/
lemma process_transcription_success_eq (env : RunEnv) (st : PState)
    (textId : Nat) (filePath method : String) (language : Option String)
    (addTimestamps : Bool) (t : Job) (newContent detectedLang : String)
    (cost : Rat)
    (ht : findText st textId = some t)
    (hfp : firstProcessing st = none)
    (hfe : env.fileExists = true) (hre : env.readErr = none)
    (hee : env.extractErr = none) (hce : env.convertedExists = true)
    (hb : selectBackend env method language addTimestamps =
      Except.ok (newContent, detectedLang, cost))
    (hap : audioPathFor textId ≠ filePath) :
    process_transcription env st textId filePath method language addTimestamps =
      { updateText st textId (fun x =>
          successJob env newContent detectedLang cost (markProcessing x)) with
        costs := st.costs ++ (if 0 < cost then
          [⟨"whisper", "transcription", cost,
            (textId, method, t.originalFilename)⟩] else []) } := by
  have htid : t.id = textId := findText_id ht
  unfold process_transcription
  rw [ht, hfp]
  simp only [not_true_eq_false, if_false, Bool.not_true]
  rw [runPipeline_success_eq env (updateText st textId markProcessing) t
        filePath method language addTimestamps newContent detectedLang cost
        hfe hre hee hce hb (by rw [htid]; exact hap)]
  rw [htid]
  rw [updateText_updateText st textId markProcessing
        (successJob env newContent detectedLang cost) (fun x => rfl)]
  simp

/-- The second component of the `try`-block body depends only on the effect
outcomes: it is the staged first-failure message. -/
lemma runPipeline_snd (env : RunEnv) (st : PState) (t : Job)
    (filePath method : String) (language : Option String)
    (addTimestamps : Bool) :
    (runPipeline env st t filePath method language addTimestamps).2 =
      stage_error env t.id filePath method language addTimestamps := by
  unfold runPipeline stage_error
  cases hfe : env.fileExists <;>
    cases hre : env.readErr <;>
      cases hee : env.extractErr <;>
        cases hce : env.convertedExists <;>
          cases hpd : env.probeDuration <;>
            cases hb : selectBackend env method language addTimestamps <;>
              simp [hfe, hre, hee, hce, hpd, hb]

/-- Looking up a present record still succeeds after any id-preserving
update anywhere in the store. -/
lemma findText_updateText_isSome (st : PState) (i j : Nat) (f : Job → Job)
    (hf : ∀ x, (f x).id = x.id) (h : (findText st j).isSome) :
    (findText (updateText st i f) j).isSome := by
  rw [findText_updateText st i j f hf]
  cases hx : findText st j
  · rw [hx] at h
    simp at h
  · simp

/-- When some stage fails, the `try`-block body keeps every present record
present. -/
lemma runPipeline_findText_isSome (env : RunEnv) (st : PState) (t : Job)
    (filePath method : String) (language : Option String)
    (addTimestamps : Bool) (i : Nat) (h : (findText st i).isSome)
    (herr : stage_error env t.id filePath method language addTimestamps ≠
      none) :
    (findText (runPipeline env st t filePath method language
        addTimestamps).1 i).isSome := by
  unfold runPipeline
  cases hfe : env.fileExists
  · simpa [hfe] using h
  · cases hre : env.readErr with
    | some m => simpa [hfe, hre] using h
    | none =>
      cases hee : env.extractErr with
      | some m => simpa [hfe, hre, hee] using h
      | none =>
        cases hce : env.convertedExists
        · simpa [hfe, hre, hee, hce] using h
        · cases hb : selectBackend env method language addTimestamps with
          | error m =>
            cases hpd : env.probeDuration with
            | none => simpa [hfe, hre, hee, hce, hpd, hb] using h
            | some d =>
              simp only [hfe, hre, hee, hce, hpd, hb, Bool.not_true,
                not_true_eq_false, if_false]
              exact findText_updateText_isSome _ t.id i (setDuration d)
                (fun x => rfl) h
          | ok v =>
            exfalso
            apply herr
            unfold stage_error
            simp [hfe, hre, hee, hce, hb]

/-- Mapping an update that sets status `processing` over the records with
the looked-up id makes the first `processing` record carry that id, provided
the store either had no `processing` record (and the id is present) or its
first `processing` record already carried that id. -/
lemma find?_processing_map_update (l : List Job) (textId : Nat)
    (g : Job → Job) (hgs : ∀ x, (g x).status = "processing")
    (hgi : ∀ x, (g x).id = x.id)
    (h : (∃ t, l.find? (fun x => x.id == textId) = some t
            ∧ ∀ y ∈ l, y.status ≠ "processing")
       ∨ (∃ p, l.find? (fun x => x.status == "processing") = some p
            ∧ p.id = textId)) :
    ∃ p2, (l.map (fun x => if x.id == textId then g x else x)).find?
        (fun x => x.status == "processing") = some p2
      ∧ p2.id = textId := by
  induction l with
  | nil =>
    rcases h with ⟨t, ht, _⟩ | ⟨p, hp, _⟩
    · cases ht
    · cases hp
  | cons x l ih =>
    by_cases hx : (x.id == textId) = true
    · refine ⟨g x, ?_, ?_⟩
      · rw [List.map_cons, if_pos hx]
        exact List.find?_cons_of_pos _ (by simp [hgs])
      · rw [hgi x]
        simpa using hx
    · rcases h with ⟨t, ht, hnp⟩ | ⟨p, hp, hpid⟩
      · have hxnp : x.status ≠ "processing" := hnp x (List.mem_cons_self x l)
        have hstep1 : List.find? (fun y => y.id == textId) (x :: l) =
            List.find? (fun y => y.id == textId) l :=
          List.find?_cons_of_neg l hx
        have ht2 : List.find? (fun y => y.id == textId) l = some t := by
          rwa [hstep1] at ht
        obtain ⟨p2, hp2, hp2id⟩ := ih (Or.inl ⟨t, ht2,
          fun y hy => hnp y (List.mem_cons_of_mem x hy)⟩)
        refine ⟨p2, ?_, hp2id⟩
        rw [List.map_cons, if_neg hx]
        have hstep2 : List.find? (fun y => y.status == "processing")
            (x :: List.map (fun y => if y.id == textId then g y else y) l) =
            List.find? (fun y => y.status == "processing")
              (List.map (fun y => if y.id == textId then g y else y) l) :=
          List.find?_cons_of_neg _ (by simp [hxnp])
        rw [hstep2, hp2]
      · by_cases hxp : (x.status == "processing") = true
        · have hstep : List.find? (fun y => y.status == "processing")
              (x :: l) = some x :=
            List.find?_cons_of_pos l hxp
          rw [hstep] at hp
          have hxeq : x = p := Option.some.inj hp
          exact absurd (by simp [hxeq, hpid]) hx
        · have hstep : List.find? (fun y => y.status == "processing")
              (x :: l) = List.find? (fun y => y.status == "processing") l :=
            List.find?_cons_of_neg l hxp
          rw [hstep] at hp
          obtain ⟨p2, hp2, hp2id⟩ := ih (Or.inr ⟨p, hp, hpid⟩)
          refine ⟨p2, ?_, hp2id⟩
          rw [List.map_cons, if_neg hx]
          have hstep2 : List.find? (fun y => y.status == "processing")
              (x :: List.map (fun y => if y.id == textId then g y else y) l) =
              List.find? (fun y => y.status == "processing")
                (List.map (fun y => if y.id == textId then g y else y) l) :=
            List.find?_cons_of_neg _ hxp
          rw [hstep2, hp2]

/-- After an update that marks the looked-up job `processing`, the first
`processing` record is that job — the situation of the nested run the
YouTube runner triggers after a successful download. -/
lemma firstProcessing_updateText_self (st : PState) (textId : Nat)
    (g : Job → Job) (hgs : ∀ x, (g x).status = "processing")
    (hgi : ∀ x, (g x).id = x.id)
    (hex : (findText st textId).isSome)
    (hguard : firstProcessing st = none
       ∨ ∃ p, firstProcessing st = some p ∧ p.id = textId) :
    ∃ p2, firstProcessing (updateText st textId g) = some p2
      ∧ p2.id = textId := by
  apply find?_processing_map_update st.texts textId g hgs hgi
  rcases hguard with hfp | hsome
  · left
    obtain ⟨t, ht⟩ := Option.isSome_iff_exists.mp hex
    refine ⟨t, ht, ?_⟩
    intro y hy hys
    unfold firstProcessing at hfp
    have hne := List.find?_eq_none.mp hfp y hy
    exact hne (by simp [hys])
  · right
    exact hsome

/-- The entry guard passes — and the run proceeds into its `try` body —
whenever no record is `processing` or the first `processing` record is the
job itself (the nested-invocation case). -/
lemma process_transcription_guard_pass (env : RunEnv) (st : PState)
    (textId : Nat) (filePath method : String) (language : Option String)
    (addTimestamps : Bool) (t : Job)
    (ht : findText st textId = some t)
    (hguard : firstProcessing st = none
       ∨ ∃ p, firstProcessing st = some p ∧ p.id = textId) :
    process_transcription env st textId filePath method language
        addTimestamps =
      (match runPipeline env (updateText st textId markProcessing) t filePath
          method language addTimestamps with
       | (st2, none) => st2
       | (st2, some msg) =>
          updateText st2 textId (failUpdate env.traceback msg)) := by
  unfold process_transcription
  rw [ht]
  rcases hguard with hfp | ⟨p, hp, hpid⟩
  · rw [hfp]
    simp only [not_true_eq_false, Bool.not_true, if_false]
  · rw [hp]
    have hpb : (p.id == textId) = true := by simp [hpid]
    simp only [hpb, not_true_eq_false, Bool.not_true, if_false]

/-- Same entry-guard reduction for the YouTube runner. -/
lemma process_youtube_guard_pass (envY : YoutubeEnv) (env : RunEnv)
    (st : PState) (textId : Nat) (youtubeUrl method : String)
    (language : Option String) (addTimestamps : Bool) (t : Job)
    (ht : findText st textId = some t)
    (hguard : firstProcessing st = none
       ∨ ∃ p, firstProcessing st = some p ∧ p.id = textId) :
    process_youtube envY env st textId youtubeUrl method language
        addTimestamps =
      (match envY.download with
       | Except.error m =>
          updateText (updateText st textId markProcessing) textId
            (failUpdate envY.traceback m)
       | Except.ok videoPath =>
          process_transcription env
            (updateText (updateText st textId markProcessing) textId
              (setFilename (pyBasename videoPath)))
            textId videoPath method language addTimestamps) := by
  unfold process_youtube
  rw [ht]
  rcases hguard with hfp | ⟨p, hp, hpid⟩
  · rw [hfp]
    simp only [not_true_eq_false, Bool.not_true, if_false]
  · rw [hp]
    have hpb : (p.id == textId) = true := by simp [hpid]
    simp only [hpb, not_true_eq_false, Bool.not_true, if_false]

/-- On any staged failure with the entry guard passed — no `processing`
record, or the first `processing` record being the job itself — the run
marks the job failed and stores the exception message combined with the
traceback. -/
lemma process_transcription_error_spec (env : RunEnv) (st : PState)
    (textId : Nat) (filePath method : String) (language : Option String)
    (addTimestamps : Bool) (t : Job) (msg : String)
    (ht : findText st textId = some t)
    (hguard : firstProcessing st = none
       ∨ ∃ p, firstProcessing st = some p ∧ p.id = textId)
    (hmsg : stage_error env textId filePath method language addTimestamps =
      some msg) :
    ∃ j, findText (process_transcription env st textId filePath method
        language addTimestamps) textId = some j
      ∧ j.status = "failed"
      ∧ j.errorMessage =
          some (msg ++ "\n\nFull traceback:\n" ++ env.traceback) := by
  have htid : t.id = textId := findText_id ht
  rw [process_transcription_guard_pass env st textId filePath method language
        addTimestamps t ht hguard]
  rcases hrp : runPipeline env (updateText st textId markProcessing) t
      filePath method language addTimestamps with ⟨st2, r2⟩
  have hsnd := runPipeline_snd env (updateText st textId markProcessing) t
      filePath method language addTimestamps
  rw [hrp, htid, hmsg] at hsnd
  have hr2 : r2 = some msg := hsnd
  subst hr2
  simp only []
  have h1 : (findText (updateText st textId markProcessing) textId).isSome := by
    rw [findText_updateText st textId textId markProcessing (fun x => rfl), ht]
    simp
  have h2 : (findText st2 textId).isSome := by
    have h3 := runPipeline_findText_isSome env
      (updateText st textId markProcessing) t filePath method language
      addTimestamps textId h1 (by rw [htid, hmsg]; simp)
    rwa [hrp] at h3
  obtain ⟨x, hx⟩ := Option.isSome_iff_exists.mp h2
  refine ⟨failUpdate env.traceback msg x, ?_, rfl, rfl⟩
  rw [findText_updateText st2 textId textId (failUpdate env.traceback msg)
        (fun y => rfl), hx]
  have hxid : (x.id == textId) = true := by simp [findText_id hx]
  rw [Option.map_some']
  rw [if_pos hxid]

/-- On a failed download with the entry guard passed, the YouTube runner
marks the job failed and stores the exception message combined with the
traceback. -/
lemma process_youtube_download_error_spec (envY : YoutubeEnv) (env : RunEnv)
    (st : PState) (textId : Nat) (youtubeUrl method : String)
    (language : Option String) (addTimestamps : Bool) (t : Job) (msg : String)
    (ht : findText st textId = some t)
    (hguard : firstProcessing st = none
       ∨ ∃ p, firstProcessing st = some p ∧ p.id = textId)
    (hdl : envY.download = Except.error msg) :
    ∃ j, findText (process_youtube envY env st textId youtubeUrl method
        language addTimestamps) textId = some j
      ∧ j.status = "failed"
      ∧ j.errorMessage =
          some (msg ++ "\n\nFull traceback:\n" ++ envY.traceback) := by
  have htid : t.id = textId := findText_id ht
  rw [process_youtube_guard_pass envY env st textId youtubeUrl method
        language addTimestamps t ht hguard, hdl]
  simp only []
  rw [updateText_updateText st textId markProcessing
        (failUpdate envY.traceback msg) (fun x => rfl)]
  refine ⟨failUpdate envY.traceback msg (markProcessing t), ?_, rfl, rfl⟩
  rw [findText_updateText st textId textId
        (fun x => failUpdate envY.traceback msg (markProcessing x))
        (fun y => rfl), ht]
  have hxid : (t.id == textId) = true := by simp [htid]
  rw [Option.map_some']
  rw [if_pos hxid]

/-- On a successful download followed by a staged failure of the nested run
(acquisition, normalization, or backend), the YouTube runner still ends with
the job failed and the combined diagnostic stored: the nested entry guard
passes because the first `processing` record is the job itself. -/
lemma process_youtube_stage_error_spec (envY : YoutubeEnv) (env : RunEnv)
    (st : PState) (textId : Nat) (youtubeUrl method videoPath : String)
    (language : Option String) (addTimestamps : Bool) (t : Job) (msg : String)
    (ht : findText st textId = some t)
    (hguard : firstProcessing st = none
       ∨ ∃ p, firstProcessing st = some p ∧ p.id = textId)
    (hdl : envY.download = Except.ok videoPath)
    (hmsg : stage_error env textId videoPath method language addTimestamps =
      some msg) :
    ∃ j, findText (process_youtube envY env st textId youtubeUrl method
        language addTimestamps) textId = some j
      ∧ j.status = "failed"
      ∧ j.errorMessage =
          some (msg ++ "\n\nFull traceback:\n" ++ env.traceback) := by
  have htid : t.id = textId := findText_id ht
  rw [process_youtube_guard_pass envY env st textId youtubeUrl method
        language addTimestamps t ht hguard, hdl]
  simp only []
  rw [updateText_updateText st textId markProcessing
        (setFilename (pyBasename videoPath)) (fun x => rfl)]
  have ht2 : findText (updateText st textId (fun x =>
      setFilename (pyBasename videoPath) (markProcessing x))) textId =
      some (setFilename (pyBasename videoPath) (markProcessing t)) := by
    rw [findText_updateText st textId textId
          (fun x => setFilename (pyBasename videoPath) (markProcessing x))
          (fun y => rfl), ht, Option.map_some']
    rw [if_pos (by simp [htid] : (t.id == textId) = true)]
  have hguard2 : firstProcessing (updateText st textId (fun x =>
        setFilename (pyBasename videoPath) (markProcessing x))) = none
      ∨ ∃ p, firstProcessing (updateText st textId (fun x =>
          setFilename (pyBasename videoPath) (markProcessing x))) = some p
        ∧ p.id = textId :=
    Or.inr (firstProcessing_updateText_self st textId
      (fun x => setFilename (pyBasename videoPath) (markProcessing x))
      (fun x => rfl) (fun x => rfl) (by rw [ht]; simp) hguard)
  exact process_transcription_error_spec env _ textId videoPath method
    language addTimestamps _ msg ht2 hguard2 hmsg

/-- When the first `processing` record is a different job, the run is a no-op
on the store. -/
lemma process_transcription_guard_noop (env : RunEnv) (st : PState)
    (textId : Nat) (filePath method : String) (language : Option String)
    (addTimestamps : Bool) (p : Job)
    (hp : firstProcessing st = some p) (hpid : p.id ≠ textId) :
    process_transcription env st textId filePath method language
      addTimestamps = st := by
  unfold process_transcription
  cases hft : findText st textId with
  | none => rfl
  | some t =>
    rw [hp]
    simp [hpid]

/-- When the first `processing` record is a different job, the YouTube runner
is a no-op on the store. -/
lemma process_youtube_guard_noop (envY : YoutubeEnv) (env : RunEnv)
    (st : PState) (textId : Nat) (youtubeUrl method : String)
    (language : Option String) (addTimestamps : Bool) (p : Job)
    (hp : firstProcessing st = some p) (hpid : p.id ≠ textId) :
    process_youtube envY env st textId youtubeUrl method language
      addTimestamps = st := by
  unfold process_youtube
  cases hft : findText st textId with
  | none => rfl
  | some t =>
    rw [hp]
    simp [hpid]

/-- In a store with distinct primary keys, if some record other than the one
looked up is `processing`, then the first `processing` record is not the one
looked up. -/
lemma firstProcessing_ne (st : PState) (textId : Nat) (j : Job)
    (hnd : (st.texts.map Job.id).Nodup)
    (ht : findText st textId = some j) (hq : j.status ≠ "processing")
    (p' : Job) (hp' : p' ∈ st.texts) (hps : p'.status = "processing") :
    ∃ p, firstProcessing st = some p ∧ p.id ≠ textId := by
  have hsome : (firstProcessing st).isSome := by
    unfold firstProcessing
    rw [List.find?_isSome]
    exact ⟨p', hp', by simp [hps]⟩
  obtain ⟨p, hp⟩ := Option.isSome_iff_exists.mp hsome
  refine ⟨p, hp, ?_⟩
  intro hpid
  have hpm : p ∈ st.texts := List.mem_of_find?_eq_some hp
  have hpstat : p.status = "processing" := by
    have h := List.find?_some hp
    simpa using h
  have hjm : j ∈ st.texts := findText_mem ht
  have hjid : j.id = textId := findText_id ht
  have hpj : p = j :=
    List.inj_on_of_nodup_map hnd hpm hjm (by rw [hpid, hjid])
  rw [hpj] at hpstat
  exact hq hpstat

/-! ## Scheduler selection lemmas -/

lemma lexLE_refl (a : Job) : lexLE a a := Or.inr ⟨rfl, le_refl _⟩

lemma lexLE_trans {a b c : Job} (h1 : lexLE a b) (h2 : lexLE b c) :
    lexLE a c := by
  rcases h1 with h | ⟨he, hi⟩ <;> rcases h2 with h' | ⟨he', hi'⟩
  · exact Or.inl (lt_trans h h')
  · exact Or.inl (he' ▸ h)
  · exact Or.inl (he ▸ h')
  · exact Or.inr ⟨he.trans he', le_trans hi hi'⟩

/-- Folding `minQueuedStep` over a tail whose ids all exceed the
accumulator's, itself sorted by id, selects an element that is `lexLE` every
candidate: the strict comparison keeps the earliest record among equal
`queuedAt` values, and stored order is ascending id order. -/
lemma foldl_minQueued_spec (ts : List Job) (acc : Job)
    (hlt : ∀ x ∈ ts, acc.id < x.id)
    (hsorted : ts.Pairwise (fun a b => a.id < b.id)) :
    (ts.foldl minQueuedStep acc = acc ∨ ts.foldl minQueuedStep acc ∈ ts)
    ∧ lexLE (ts.foldl minQueuedStep acc) acc
    ∧ ∀ x ∈ ts, lexLE (ts.foldl minQueuedStep acc) x := by
  induction ts generalizing acc with
  | nil =>
    exact ⟨Or.inl rfl, lexLE_refl acc, fun x hx => absurd hx (by simp)⟩
  | cons c ts ih =>
    rw [List.foldl_cons]
    have hc : acc.id < c.id := hlt c (List.mem_cons_self c ts)
    obtain ⟨hcts, hsorted'⟩ := List.pairwise_cons.mp hsorted
    have hstep : minQueuedStep acc c = c ∨ minQueuedStep acc c = acc := by
      unfold minQueuedStep
      split
      · exact Or.inl rfl
      · exact Or.inr rfl
    have hlexacc : lexLE (minQueuedStep acc c) acc := by
      unfold minQueuedStep
      split
      · rename_i hcc
        exact Or.inl hcc
      · exact lexLE_refl acc
    have hlexc : lexLE (minQueuedStep acc c) c := by
      unfold minQueuedStep
      split
      · exact lexLE_refl c
      · rename_i hcc
        rcases Nat.lt_or_ge acc.queuedAt c.queuedAt with h2 | h2
        · exact Or.inl h2
        · exact Or.inr ⟨Nat.le_antisymm (Nat.le_of_not_lt hcc) h2,
            Nat.le_of_lt hc⟩
    have hlt' : ∀ x ∈ ts, (minQueuedStep acc c).id < x.id := by
      intro x hx
      rcases hstep with h | h <;> rw [h]
      · exact hcts x hx
      · exact hlt x (List.mem_cons_of_mem c hx)
    obtain ⟨hmem, hlex, hall⟩ := ih (minQueuedStep acc c) hlt' hsorted'
    refine ⟨?_, lexLE_trans hlex hlexacc, ?_⟩
    · rcases hmem with h | h
      · rw [h]
        rcases hstep with h' | h'
        · rw [h']
          exact Or.inr (List.mem_cons_self c ts)
        · rw [h']
          exact Or.inl rfl
      · exact Or.inr (List.mem_cons_of_mem c h)
    · intro x hx
      rcases List.mem_cons.mp hx with h | h
      · rw [h]
        exact lexLE_trans hlex hlexc
      · exact hall x h

/-- `oldestQueued` returns nothing exactly when no record is queued. -/
lemma oldestQueued_eq_none_iff (texts : List Job) :
    oldestQueued texts = none ↔ ∀ t ∈ texts, ¬ t.status = "queued" := by
  unfold oldestQueued
  cases hf : texts.filter (fun t => t.status == "queued") with
  | nil =>
    simp only []
    constructor
    · intro _ t ht hq
      have hmem : t ∈ texts.filter (fun t => t.status == "queued") :=
        List.mem_filter.mpr ⟨ht, by simp [hq]⟩
      rw [hf] at hmem
      cases hmem
    · intro _
      trivial
  | cons q qs =>
    simp only []
    constructor
    · intro h
      cases h
    · intro h
      have hmem : q ∈ texts.filter (fun t => t.status == "queued") := by
        rw [hf]
        exact List.mem_cons_self q qs
      have hq := List.mem_filter.mp hmem
      exact absurd (by simpa using hq.2) (h q hq.1)

/-- In an id-sorted store, the record `oldestQueued` selects is a queued
record that is `lexLE` every queued record. -/
lemma oldestQueued_some_spec (texts : List Job)
    (hsorted : texts.Pairwise (fun a b => a.id < b.id))
    (q : Job) (hq : oldestQueued texts = some q) :
    q ∈ texts ∧ q.status = "queued" ∧
      ∀ k ∈ texts, k.status = "queued" → lexLE q k := by
  unfold oldestQueued at hq
  cases hf : texts.filter (fun t => t.status == "queued") with
  | nil =>
    rw [hf] at hq
    cases hq
  | cons q0 qs =>
    rw [hf] at hq
    have hq' : qs.foldl minQueuedStep q0 = q := Option.some.inj hq
    have hfsorted : (q0 :: qs).Pairwise (fun a b => a.id < b.id) := by
      rw [← hf]
      exact hsorted.filter _
    obtain ⟨h0, hsorted'⟩ := List.pairwise_cons.mp hfsorted
    obtain ⟨hmem, hlex, hall⟩ := foldl_minQueued_spec qs q0 h0 hsorted'
    rw [hq'] at hmem hlex hall
    have hqmem : q ∈ q0 :: qs := by
      rcases hmem with h | h
      · rw [h]
        exact List.mem_cons_self q0 qs
      · exact List.mem_cons_of_mem _ h
    have hqfil : q ∈ texts.filter (fun t => t.status == "queued") := by
      rw [hf]
      exact hqmem
    have hqf := List.mem_filter.mp hqfil
    refine ⟨hqf.1, by simpa using hqf.2, ?_⟩
    intro k hk hks
    have hkfil : k ∈ q0 :: qs := by
      rw [← hf]
      exact List.mem_filter.mpr ⟨hk, by simp [hks]⟩
    rcases List.mem_cons.mp hkfil with h | h
    · rw [h]
      exact hlex
    · exact hall k h

/-- A member with status `processing` makes `firstProcessing` succeed. -/
lemma firstProcessing_isSome_of_mem {st : PState} {p : Job}
    (hp : p ∈ st.texts) (hs : p.status = "processing") :
    ∃ q, firstProcessing st = some q := by
  have h : (firstProcessing st).isSome := by
    unfold firstProcessing
    rw [List.find?_isSome]
    exact ⟨p, hp, by simp [hs]⟩
  exact Option.isSome_iff_exists.mp h

/-- With no `processing` record, `firstProcessing` finds nothing. -/
lemma firstProcessing_eq_none {st : PState}
    (h : ∀ t ∈ st.texts, t.status ≠ "processing") :
    firstProcessing st = none := by
  unfold firstProcessing
  rw [List.find?_eq_none]
  intro x hx
  simp [h x hx]

/-! ## Claims -/

/-- C1: for every invocation of the job state machine's run operation
(`process_transcription` or `process_youtube`) on a job J, if at entry some
other job (with a different id) has status `processing`, the invocation is a
no-op for J: the whole store — in particular J's `queued` status and every
other field of J — is returned unchanged.  (The store is assumed to have
distinct primary keys, which the database enforces.) -/
theorem c1_single_flight_entry_noop (env : RunEnv) (envY : YoutubeEnv)
    (st : PState) (textId : Nat) (filePath youtubeUrl method : String)
    (language : Option String) (addTimestamps : Bool) (j p' : Job)
    (hnd : (st.texts.map Job.id).Nodup)
    (ht : findText st textId = some j) (hjq : j.status = "queued")
    (hp' : p' ∈ st.texts) (hps : p'.status = "processing")
    (hpid : p'.id ≠ textId) :
    process_transcription env st textId filePath method language
        addTimestamps = st
    ∧ process_youtube envY env st textId youtubeUrl method language
        addTimestamps = st := by
  obtain ⟨p, hp, hpne⟩ := firstProcessing_ne st textId j hnd ht
    (by simp [hjq]) p' hp' hps
  exact ⟨process_transcription_guard_noop env st textId filePath method
           language addTimestamps p hp hpne,
         process_youtube_guard_noop envY env st textId youtubeUrl method
           language addTimestamps p hp hpne⟩

/-- Witness for C1 at a concrete store: job 1 is queued, job 2 is
processing, and both run operations return the store unchanged. -/
theorem c1_single_flight_entry_noop_witness :
    ((wStore.texts.map Job.id).Nodup
      ∧ findText wStore 1 = some wJob ∧ wJob.status = "queued"
      ∧ wJob2 ∈ wStore.texts ∧ wJob2.status = "processing" ∧ wJob2.id ≠ 1)
    ∧ process_transcription wEnvOk wStore 1 "uploads/a.mp3" "local" none
        true = wStore
    ∧ process_youtube wEnvY wEnvOk wStore 1 "url" "local" none true =
        wStore := by
  have h := c1_single_flight_entry_noop wEnvOk wEnvY wStore 1 "uploads/a.mp3"
    "url" "local" none true wJob wJob2 (by decide) (by decide) (by decide)
    (by decide) (by decide) (by decide)
  exact ⟨⟨by decide, by decide, by decide, by decide, by decide, by decide⟩,
    h.1, h.2⟩

/-- C2: on an id-sorted store, `process_next_in_queue` returns without
starting anything when some job is `processing`; with none processing it
starts nothing when no job is `queued`, and otherwise starts exactly the
queued job with the smallest `queued_at`, ties broken by ascending id
(`lexLE`), spawning the runner matching that job's source type. -/
theorem c2_admit_next_selects (st : PState)
    (hsorted : st.texts.Pairwise (fun a b => a.id < b.id)) :
    (∀ p ∈ st.texts, p.status = "processing" →
        process_next_in_queue st = none)
    ∧ ((∀ t ∈ st.texts, t.status ≠ "processing") →
        ((∀ t ∈ st.texts, t.status ≠ "queued") →
            process_next_in_queue st = none)
        ∧ (∀ q, oldestQueued st.texts = some q →
            q ∈ st.texts ∧ q.status = "queued"
            ∧ (∀ k ∈ st.texts, k.status = "queued" → lexLE q k)
            ∧ process_next_in_queue st = some (spawnFor q))
        ∧ ((∃ t ∈ st.texts, t.status = "queued") →
            ∃ q, oldestQueued st.texts = some q)) := by
  constructor
  · intro p hp hps
    unfold process_next_in_queue
    obtain ⟨q, hq⟩ := firstProcessing_isSome_of_mem hp hps
    rw [hq]
  · intro hnp
    have hfpn := firstProcessing_eq_none hnp
    refine ⟨?_, ?_, ?_⟩
    · intro hnq
      unfold process_next_in_queue
      rw [hfpn, (oldestQueued_eq_none_iff _).mpr hnq]
    · intro q hq
      obtain ⟨hm, hs, hall⟩ := oldestQueued_some_spec st.texts hsorted q hq
      refine ⟨hm, hs, hall, ?_⟩
      unfold process_next_in_queue
      rw [hfpn, hq]
    · rintro ⟨t, htm, hts⟩
      cases ho : oldestQueued st.texts with
      | none => exact absurd hts ((oldestQueued_eq_none_iff _).mp ho t htm)
      | some q => exact ⟨q, rfl⟩

/-- Witness for C2 at a concrete store: among queued jobs 1 (queued at 10)
and 3 (queued at 5) with nothing processing, job 3 is selected and its
upload runner spawned. -/
theorem c2_admit_next_selects_witness :
    (wStoreQ.texts.Pairwise fun a b => a.id < b.id)
    ∧ (wJob3 ∈ wStoreQ.texts ∧ wJob3.status = "queued"
       ∧ (∀ k ∈ wStoreQ.texts, k.status = "queued" → lexLE wJob3 k)
       ∧ process_next_in_queue wStoreQ = some (spawnFor wJob3)) := by
  refine ⟨by decide, ?_⟩
  have h := c2_admit_next_selects wStoreQ (by decide)
  exact (h.2 (by decide)).2.1 wJob3 (by decide)

/-- C3: for every run invocation in which acquisition, normalization, or
backend invocation raises (`stage_error` yields a message, covering the
missing-file check, the read check, ffmpeg extraction, the converted-file
check and the backend), the job ends with status `failed` — hence not
`processing` — and its error field holds the exception message followed by
the full stack trace.  Covered invocations: a direct `process_transcription`
run; a `process_youtube` run whose download fails; and a `process_youtube`
run whose download succeeds but whose nested run then fails at one of the
stages (there the nested entry guard passes because the first `processing`
record is the job itself, which is why the guard hypothesis admits either no
`processing` record or the job itself as the first one). -/
theorem c3_failure_finalization (env : RunEnv) (envY envYOk : YoutubeEnv)
    (st : PState) (textId : Nat)
    (filePath youtubeUrl method videoPath : String)
    (language : Option String) (addTimestamps : Bool) (t : Job)
    (msgT msgY msgS : String)
    (ht : findText st textId = some t)
    (hguard : firstProcessing st = none
       ∨ ∃ p, firstProcessing st = some p ∧ p.id = textId)
    (hmsg : stage_error env textId filePath method language addTimestamps =
      some msgT)
    (hdl : envY.download = Except.error msgY)
    (hdlOk : envYOk.download = Except.ok videoPath)
    (hmsgS : stage_error env textId videoPath method language addTimestamps =
      some msgS) :
    (∃ j, findText (process_transcription env st textId filePath method
          language addTimestamps) textId = some j
        ∧ j.status = "failed" ∧ j.status ≠ "processing"
        ∧ j.errorMessage =
            some (msgT ++ "\n\nFull traceback:\n" ++ env.traceback))
    ∧ (∃ j, findText (process_youtube envY env st textId youtubeUrl method
          language addTimestamps) textId = some j
        ∧ j.status = "failed" ∧ j.status ≠ "processing"
        ∧ j.errorMessage =
            some (msgY ++ "\n\nFull traceback:\n" ++ envY.traceback))
    ∧ (∃ j, findText (process_youtube envYOk env st textId youtubeUrl method
          language addTimestamps) textId = some j
        ∧ j.status = "failed" ∧ j.status ≠ "processing"
        ∧ j.errorMessage =
            some (msgS ++ "\n\nFull traceback:\n" ++ env.traceback)) := by
  obtain ⟨j1, ha1, ha2, ha3⟩ := process_transcription_error_spec env st textId
    filePath method language addTimestamps t msgT ht hguard hmsg
  obtain ⟨j2, hb1, hb2, hb3⟩ := process_youtube_download_error_spec envY env st
    textId youtubeUrl method language addTimestamps t msgY ht hguard hdl
  obtain ⟨j3, hc1, hc2, hc3⟩ := process_youtube_stage_error_spec envYOk env st
    textId youtubeUrl method videoPath language addTimestamps t msgS ht hguard
    hdlOk hmsgS
  refine ⟨⟨j1, ha1, ha2, ?_, ha3⟩, ⟨j2, hb1, hb2, ?_, hb3⟩,
    ⟨j3, hc1, hc2, ?_, hc3⟩⟩
  · rw [ha2]
    decide
  · rw [hb2]
    decide
  · rw [hc2]
    decide

/-- Witness for C3: a run whose ffmpeg extraction fails, a YouTube run whose
download fails, and a YouTube run whose download succeeds but whose nested
run then fails at ffmpeg extraction, all finalize job 1 as `failed` with the
combined diagnostic. -/
theorem c3_failure_finalization_witness :
    (findText wStoreQ 1 = some wJob
      ∧ (firstProcessing wStoreQ = none
          ∨ ∃ p, firstProcessing wStoreQ = some p ∧ p.id = 1)
      ∧ stage_error wEnvFail 1 "uploads/a.mp3" "local" none true = some "boom"
      ∧ wEnvY.download = Except.error "network down"
      ∧ wEnvYOk.download = Except.ok "uploads/youtube_1_v.wav"
      ∧ stage_error wEnvFail 1 "uploads/youtube_1_v.wav" "local" none true =
          some "boom")
    ∧ (∃ j, findText (process_transcription wEnvFail wStoreQ 1
          "uploads/a.mp3" "local" none true) 1 = some j
        ∧ j.status = "failed" ∧ j.status ≠ "processing"
        ∧ j.errorMessage =
            some ("boom" ++ "\n\nFull traceback:\n" ++ "TRACE"))
    ∧ (∃ j, findText (process_youtube wEnvY wEnvFail wStoreQ 1 "url" "local"
          none true) 1 = some j
        ∧ j.status = "failed" ∧ j.status ≠ "processing"
        ∧ j.errorMessage =
            some ("network down" ++ "\n\nFull traceback:\n" ++ "TRACEY"))
    ∧ (∃ j, findText (process_youtube wEnvYOk wEnvFail wStoreQ 1 "url"
          "local" none true) 1 = some j
        ∧ j.status = "failed" ∧ j.status ≠ "processing"
        ∧ j.errorMessage =
            some ("boom" ++ "\n\nFull traceback:\n" ++ "TRACE")) := by
  have h := c3_failure_finalization wEnvFail wEnvY wEnvYOk wStoreQ 1
    "uploads/a.mp3" "url" "local" "uploads/youtube_1_v.wav" none true wJob
    "boom" "network down" "boom" (by decide) (Or.inl (by decide)) (by decide)
    rfl rfl (by decide)
  exact ⟨⟨by decide, Or.inl (by decide), by decide, rfl, rfl, by decide⟩,
    h.1, h.2.1, h.2.2⟩

/-- C4: for every run invocation in which the selected backend returns
successfully, the job's transcript content, detected language and cost are
persisted and its status becomes the terminal success state — the literal
status string `"unread"`, which realizes the specification's `ready` — while
the temporary normalized-audio artifact is removed (the file set returns to
its pre-run state) and the original uploaded file is not removed. -/
theorem c4_success_persistence (env : RunEnv) (st : PState) (textId : Nat)
    (filePath method : String) (language : Option String)
    (addTimestamps : Bool) (t : Job) (newContent detectedLang : String)
    (cost : Rat)
    (ht : findText st textId = some t)
    (hfp : firstProcessing st = none)
    (hfe : env.fileExists = true) (hre : env.readErr = none)
    (hee : env.extractErr = none) (hce : env.convertedExists = true)
    (hb : selectBackend env method language addTimestamps =
      Except.ok (newContent, detectedLang, cost))
    (hap : audioPathFor textId ≠ filePath) :
    ∃ j, findText (process_transcription env st textId filePath method
          language addTimestamps) textId = some j
      ∧ j.content = newContent
      ∧ j.language = some detectedLang
      ∧ j.cost = cost
      ∧ j.status = "unread"
      ∧ (process_transcription env st textId filePath method language
          addTimestamps).files = st.files
      ∧ (filePath ∈ st.files →
          filePath ∈ (process_transcription env st textId filePath method
            language addTimestamps).files) := by
  rw [process_transcription_success_eq env st textId filePath method language
        addTimestamps t newContent detectedLang cost ht hfp hfe hre hee hce hb
        hap]
  refine ⟨successJob env newContent detectedLang cost (markProcessing t),
    ?_, rfl, rfl, rfl, rfl, rfl, fun h => h⟩
  have hsame : findText
      { updateText st textId (fun x =>
          successJob env newContent detectedLang cost (markProcessing x)) with
        costs := st.costs ++ (if 0 < cost then
          [⟨"whisper", "transcription", cost,
            (textId, method, t.originalFilename)⟩] else []) } textId =
      findText (updateText st textId (fun x =>
        successJob env newContent detectedLang cost (markProcessing x)))
        textId := rfl
  rw [hsame, findText_updateText st textId textId
        (fun x => successJob env newContent detectedLang cost
          (markProcessing x)) (fun x => by rw [successJob_id, markProcessing_id]),
      ht, Option.map_some']
  rw [if_pos (by simp [findText_id ht] : (t.id == textId) = true)]

/-- Witness for C4: a concrete successful local run persists the transcript,
language `"en"` and cost 0, marks job 1 `"unread"`, and leaves the file set
unchanged with the original upload still present. -/
theorem c4_success_persistence_witness :
    (findText wStoreQ 1 = some wJob
      ∧ firstProcessing wStoreQ = none
      ∧ selectBackend wEnvOk "local" none true =
          Except.ok ("[0:00:00,0000] Hello", "en", 0)
      ∧ audioPathFor 1 ≠ "uploads/a.mp3")
    ∧ ∃ j, findText (process_transcription wEnvOk wStoreQ 1 "uploads/a.mp3"
          "local" none true) 1 = some j
        ∧ j.content = "[0:00:00,0000] Hello"
        ∧ j.language = some "en"
        ∧ j.cost = 0
        ∧ j.status = "unread"
        ∧ (process_transcription wEnvOk wStoreQ 1 "uploads/a.mp3" "local"
            none true).files = wStoreQ.files
        ∧ ("uploads/a.mp3" ∈ wStoreQ.files →
            "uploads/a.mp3" ∈ (process_transcription wEnvOk wStoreQ 1
              "uploads/a.mp3" "local" none true).files) := by
  have h := c4_success_persistence wEnvOk wStoreQ 1 "uploads/a.mp3" "local"
    none true wJob "[0:00:00,0000] Hello" "en" 0 (by decide) (by decide)
    (by decide) (by decide) (by decide) (by decide) rfl (by decide)
  exact ⟨⟨by decide, by decide, rfl, by decide⟩, h⟩

/-- C5 (code bug): `format_timestamp` truncates `str(timedelta)` to twelve
characters before padding, so on every duration below ten hours it emits a
one-digit hour and a four-digit fraction (`0:00:00,0000`), not the
`HH:MM:SS,mmm` SRT pattern its own docstring and the specification assert:
a successful timestamped local run on a single segment starting at 0 s yields
the line `[0:00:00,0000] Hello`, which fails the specified pattern (while
durations of ten hours or more do match it, showing the padding intent). -/
theorem c5_timestamp_format_bug :
    format_timestamp 0 = "0:00:00,0000"
    ∧ format_timestamp 83500000 = "0:01:23,5000"
    ∧ format_timestamp 36000000000 = "10:00:00,000"
    ∧ (∃ txt, transcribe_local wEnvOk none true = Except.ok (txt, "en", 0)
        ∧ txt = "[0:00:00,0000] Hello")
    ∧ specTimestampLinePattern "[0:00:00,0000] Hello".data = false
    ∧ specTimestampLinePattern "[00:00:00,000] Hello".data = true := by
  exact ⟨by decide, by decide, by decide,
    ⟨"[0:00:00,0000] Hello", rfl, rfl⟩, by decide, by decide⟩

/-- C6 counterexample: a successful paid run with positive cost records the
event with `service = "whisper"` and `category = "transcription"`, not
`service = "transcription"` and `category = "media"` as the claim states: no
recorded event carries the claimed service/category pair. -/
theorem c6_cost_event_counterexample :
    (0 : Rat) < 100 / 60 * (6 / 1000)
    ∧ (process_transcription wEnvOk wStoreQ 1 "uploads/a.mp3" "api" none
        true).costs =
      [⟨"whisper", "transcription", 100 / 60 * (6 / 1000),
        (1, "api", "a.mp3")⟩]
    ∧ ∀ r ∈ (process_transcription wEnvOk wStoreQ 1 "uploads/a.mp3" "api"
        none true).costs,
        ¬ (r.service = "transcription" ∧ r.category = "media") := by
  have hcost : (0 : Rat) < 100 / 60 * (6 / 1000) := by norm_num
  have heq := process_transcription_success_eq wEnvOk wStoreQ 1
    "uploads/a.mp3" "api" none true wJob "hi" "auto" (100 / 60 * (6 / 1000))
    (by decide) (by decide) rfl rfl rfl rfl rfl (by decide)
  refine ⟨hcost, ?_, ?_⟩
  · rw [heq]
    simp [hcost, wStoreQ, wJob]
  · rw [heq]
    intro r hr
    simp [hcost, wStoreQ, wJob] at hr
    rw [hr]
    decide

/-- C6 as amended: on a successful run a cost event — with
`service = "whisper"` and `category = "transcription"` — is recorded if and
only if the job's cost is strictly positive; the local backend always
returns cost 0, and the remote backend computes cost from the probed audio
duration at the fixed rate 0.006 dollars per minute (defaulting to one
minute's rate when the probe fails). -/
theorem c6_cost_event_amended (env : RunEnv) (st : PState) (textId : Nat)
    (filePath method : String) (language : Option String)
    (addTimestamps : Bool) (t : Job) (newContent detectedLang : String)
    (cost : Rat)
    (ht : findText st textId = some t)
    (hfp : firstProcessing st = none)
    (hfe : env.fileExists = true) (hre : env.readErr = none)
    (hee : env.extractErr = none) (hce : env.convertedExists = true)
    (hb : selectBackend env method language addTimestamps =
      Except.ok (newContent, detectedLang, cost))
    (hap : audioPathFor textId ≠ filePath) :
    ((0 < cost → (process_transcription env st textId filePath method
          language addTimestamps).costs =
        st.costs ++ [⟨"whisper", "transcription", cost,
          (textId, method, t.originalFilename)⟩])
      ∧ (¬ 0 < cost → (process_transcription env st textId filePath method
          language addTimestamps).costs = st.costs))
    ∧ (∀ (env' : RunEnv) (lang' : Option String) (ts' : Bool)
          (segs : List Segment) (il : String),
        env'.localModel = Except.ok (segs, il) →
        ∃ txt dl, transcribe_local env' lang' ts' = Except.ok (txt, dl, 0))
    ∧ (∀ (env' : RunEnv) (lang' : Option String) (ts' : Bool) (tr : String),
        env'.apiTranscript = Except.ok tr →
        ∃ txt dl c, transcribe_api env' lang' ts' = Except.ok (txt, dl, c)
          ∧ c = (match env'.apiProbe with
                 | some d => d / 60 * (6 / 1000)
                 | none => (6 : Rat) / 1000)) := by
  refine ⟨?_, ?_, ?_⟩
  · rw [process_transcription_success_eq env st textId filePath method
        language addTimestamps t newContent detectedLang cost ht hfp hfe hre
        hee hce hb hap]
    constructor
    · intro hc
      simp [hc]
    · intro hc
      simp [hc]
  · intro env' lang' ts' segs il h
    unfold transcribe_local
    rw [h]
    exact ⟨_, _, rfl⟩
  · intro env' lang' ts' tr h
    unfold transcribe_api
    rw [h]
    exact ⟨_, _, _, rfl, rfl⟩

/-- Witness for the amended C6: the concrete paid run of the counterexample
appends exactly one event with positive amount, and a zero-cost local run
appends none. -/
theorem c6_cost_event_amended_witness :
    (findText wStoreQ 1 = some wJob ∧ firstProcessing wStoreQ = none
      ∧ selectBackend wEnvOk "api" none true =
          Except.ok ("hi", "auto", 100 / 60 * (6 / 1000))
      ∧ audioPathFor 1 ≠ "uploads/a.mp3"
      ∧ (0 : Rat) < 100 / 60 * (6 / 1000))
    ∧ (process_transcription wEnvOk wStoreQ 1 "uploads/a.mp3" "api" none
        true).costs =
      wStoreQ.costs ++ [⟨"whisper", "transcription", 100 / 60 * (6 / 1000),
        (1, "api", "a.mp3")⟩] := by
  have h := c6_cost_event_amended wEnvOk wStoreQ 1 "uploads/a.mp3" "api" none
    true wJob "hi" "auto" (100 / 60 * (6 / 1000)) (by decide) (by decide)
    rfl rfl rfl rfl rfl (by decide)
  exact ⟨⟨by decide, by decide, rfl, by decide, by norm_num⟩,
    h.1.1 (by norm_num)⟩

/-- C7 counterexample: with the hint `"auto"` the local backend reports the
literal string `"auto"` as the detected language, not the model's detection
(`"en"` here): `info.language if not language else language` treats `"auto"`
as a truthy override. -/
theorem c7_detected_language_counterexample :
    transcribe_local { wEnvOk with localModel := Except.ok ([], "en") }
        (some "auto") false = Except.ok ("", "auto", 0)
    ∧ ({ wEnvOk with localModel := Except.ok ([], "en") } :
        RunEnv).localModel = Except.ok ([], "en")
    ∧ "auto" ≠ "en" := ⟨rfl, rfl, by decide⟩

/-- C7 as amended: the local backend's reported detected language is the
model's detection exactly when the hint is absent (`None`) or empty, and is
the hint string itself — including the literal `"auto"` — whenever the hint
is non-empty. -/
theorem c7_detected_language_amended (env : RunEnv)
    (language : Option String) (addTimestamps : Bool) (segs : List Segment)
    (infoLang : String)
    (h : env.localModel = Except.ok (segs, infoLang)) :
    ∃ txt dl, transcribe_local env language addTimestamps =
        Except.ok (txt, dl, 0)
      ∧ ((language = none ∨ language = some "") → dl = infoLang)
      ∧ (∀ l, language = some l → l ≠ "" → dl = l) := by
  unfold transcribe_local
  rw [h]
  cases language with
  | none =>
    refine ⟨"\n".intercalate (renderSegmentLines segs addTimestamps),
      infoLang, rfl, fun _ => rfl, ?_⟩
    intro l hl
    cases hl
  | some l =>
    by_cases hl : l = ""
    · subst hl
      refine ⟨"\n".intercalate (renderSegmentLines segs addTimestamps),
        infoLang, by simp, fun _ => rfl, ?_⟩
      intro l' hl' hne
      cases hl'
      exact absurd rfl hne
    · refine ⟨"\n".intercalate (renderSegmentLines segs addTimestamps),
        l, by simp [hl], ?_, ?_⟩
      · intro hcon
        rcases hcon with hcon | hcon
        · cases hcon
        · rw [Option.some.inj hcon] at hl
          exact absurd rfl hl
      · intro l' hl' _
        rw [Option.some.inj hl']

/-- Witness for the amended C7: hint `"ru"` overrides the model's `"en"`,
and an absent hint reports the model's `"en"`. -/
theorem c7_detected_language_amended_witness :
    (wEnvOk.localModel = Except.ok ([⟨0, 1500000, "Hello"⟩], "en"))
    ∧ (∃ txt dl, transcribe_local wEnvOk (some "ru") false =
        Except.ok (txt, dl, 0) ∧ dl = "ru")
    ∧ (∃ txt dl, transcribe_local wEnvOk none false =
        Except.ok (txt, dl, 0) ∧ dl = "en") := by
  obtain ⟨t1, d1, h1, _, h1b⟩ := c7_detected_language_amended wEnvOk
    (some "ru") false [⟨0, 1500000, "Hello"⟩] "en" rfl
  obtain ⟨t2, d2, h2, h2a, _⟩ := c7_detected_language_amended wEnvOk
    none false [⟨0, 1500000, "Hello"⟩] "en" rfl
  exact ⟨rfl, ⟨t1, d1, h1, h1b "ru" rfl (by decide)⟩,
    ⟨t2, d2, h2, h2a (Or.inl rfl)⟩⟩

/-- C8 counterexample: on a store with one `queued` and two `unread` jobs the
endpoint returns `{processing: 0, unread: 2, total: 3}` — the number of
queued jobs (1) appears in no component, and there is no queued count in the
returned object at all; the `unread` component counts terminal-success
records, not queued ones. -/
theorem c8_queue_stats_counterexample :
    get_queue_stats wStoreStats =
      [("processing", 0), ("unread", 2), ("total", 3)]
    ∧ (wStoreStats.texts.filter (fun t => t.status == "queued")).length = 1
    ∧ (∀ kv ∈ get_queue_stats wStoreStats, kv.2 ≠ 1)
    ∧ (get_queue_stats wStoreStats).lookup "queued_count" = none := by
  refine ⟨by decide, by decide, by decide, by decide⟩

/-- C8 as amended: the queue-statistics endpoint returns exactly the keys
`processing`, `unread` and `total`, holding the number of `processing`
records, the number of `unread` records, and the total number of records;
it reports no count of `queued` records. -/
theorem c8_queue_stats_amended (st : PState) :
    (get_queue_stats st).lookup "processing" =
        some (st.texts.countP (fun t => t.status == "processing"))
    ∧ (get_queue_stats st).lookup "unread" =
        some (st.texts.countP (fun t => t.status == "unread"))
    ∧ (get_queue_stats st).lookup "total" = some st.texts.length
    ∧ (get_queue_stats st).lookup "queued_count" = none := by
  refine ⟨?_, ?_, rfl, rfl⟩
  · show some ((st.texts.filter (fun t => t.status == "processing")).length) =
      some (st.texts.countP (fun t => t.status == "processing"))
    rw [List.countP_eq_length_filter]
  · show some ((st.texts.filter (fun t => t.status == "unread")).length) =
      some (st.texts.countP (fun t => t.status == "unread"))
    rw [List.countP_eq_length_filter]

/-- C9 (code bug): `sanitize_filename` splits off the extension and appends
it back unsanitized, so a title whose last dot-suffix contains non-ASCII
characters — such as `"a.б"` — survives with Cyrillic intact, contradicting
the function's own docstring ("Sanitize filename to be safe for all
filesystems. Removes/replaces problematic characters including Cyrillic")
and the claim's all-ASCII guarantee; the final download name then carries
the non-ASCII bytes.  The stem-side sanitization (transliteration,
underscores, `file` fallback) does behave as claimed. -/
theorem c9_sanitize_extension_bug :
    sanitize_filename "a.б" = "a.б"
    ∧ asciiOnly (sanitize_filename "a.б") = false
    ∧ download_final_name 7 "a.б" = "uploads/youtube_7_a.б.wav"
    ∧ sanitize_filename "Привет мир!" = "Privet_mir"
    ∧ sanitize_filename "!!!" = "file" := by
  refine ⟨by decide, by decide, by decide, by decide, by decide⟩

/-- C10: every upload whose content exceeds 500*1024*1024 bytes, or is
exactly 0 bytes, or whose (lowercased) extension is in neither the audio nor
the video whitelist, is rejected with HTTP 400, and the store — records and
files alike — is returned unchanged. -/
theorem c10_upload_validation_rejects (envU : UploadEnv) (st : PState)
    (fileSize : Nat) (uploadName method language : String)
    (h : fileSize > 500 * 1024 * 1024 ∨ fileSize = 0
      ∨ (¬ audioExtensions.contains (pyLower (splitext uploadName).2) = true
          ∧ ¬ videoExtensions.contains
              (pyLower (splitext uploadName).2) = true)) :
    (upload_file envU st fileSize uploadName method language).1 = st
    ∧ ∃ msg, (upload_file envU st fileSize uploadName method language).2 =
        Except.error (400, msg) := by
  unfold upload_file
  by_cases h1 : fileSize > 500 * 1024 * 1024
  · rw [if_pos h1]
    exact ⟨rfl, "File too large. Maximum size is 500MB", rfl⟩
  · rw [if_neg h1]
    by_cases h2 : fileSize = 0
    · rw [if_pos h2]
      exact ⟨rfl, "Uploaded file is empty (0 bytes)", rfl⟩
    · rw [if_neg h2]
      rcases h with h | h | ⟨ha, hv⟩
      · exact absurd h h1
      · exact absurd h h2
      · rw [Bool.not_eq_true] at ha hv
        simp only [ha, hv, Bool.false_eq_true, if_false]
        refine ⟨?_, "Unsupported file format", ?_⟩ <;> trivial

/-- Witness for C10: a 0-byte upload of `a.mp3` is rejected with 400 and the
store is unchanged. -/
theorem c10_upload_validation_rejects_witness :
    ((0 : Nat) > 500 * 1024 * 1024 ∨ (0 : Nat) = 0
      ∨ (¬ audioExtensions.contains (pyLower (splitext "a.mp3").2) = true
          ∧ ¬ videoExtensions.contains
              (pyLower (splitext "a.mp3").2) = true))
    ∧ (upload_file wUploadEnv wStoreQ 0 "a.mp3" "local" "auto").1 = wStoreQ
    ∧ ∃ msg, (upload_file wUploadEnv wStoreQ 0 "a.mp3" "local" "auto").2 =
        Except.error (400, msg) := by
  have h := c10_upload_validation_rejects wUploadEnv wStoreQ 0 "a.mp3"
    "local" "auto" (Or.inr (Or.inl rfl))
  exact ⟨Or.inr (Or.inl rfl), h.1, h.2⟩

end WhisperNotebook
